import Mathlib

/-!
Shallow embedding of the go-vast-client REST core (package `vast_client`)
and proofs about its specification claims.

The embedding models Go values flowing through the client as an inductive
`GoVal` type (JSON scalars, lists; Go `float64` is modelled as a rational),
Go maps `Params` / `Record` as association lists, and Go errors as the
inductive `GoErr` (with the distinct `*NotFoundError` type as its own
constructor, matching `errors.As` dispatch in `isNotFoundErr`).  Go runtime
panics (nil dereference, out-of-range indexing, failed type assertions)
are modelled explicitly by the `GoResult` type so that safety claims about
panic-freedom can be settled.  Network interactions are modelled by oracle
parameters: a function supplying the response a given call would receive,
so that theorems quantify over all possible server behaviours.
-/

namespace VastClient

/-- Dynamic value as carried in Go `any` / decoded JSON: the cases the client
code switches on (`toInt`, `fmt.Sprint`, type assertions). `vFloat` models Go
`float64` as a rational; `vNull` models a nil interface (also the result of a
missing map key). -/
inductive GoVal where
  | vStr (s : String)
  | vInt (n : Int)
  | vInt64 (n : Int)
  | vFloat (q : Rat)
  | vBool (b : Bool)
  | vNull
  | vList (xs : List GoVal)

/-- Go error values produced by the client.  `notFound` embeds the distinct
`*NotFoundError` struct type (fields `Resource`, `Query`); every
`fmt.Errorf`-produced error is `errorf` with its formatted message, which is
how Go callers see them (`errors.As` only matches `notFound`). -/
inductive GoErr where
  | notFound (resource query : String)
  | errorf (msg : String)
  deriving DecidableEq, Repr

/-- Embedding of `isNotFoundErr` (api_methods.go): `errors.As(err, &nfErr)`
succeeds exactly on the `*NotFoundError` type. -/
def isNotFoundErr : GoErr → Bool
  | .notFound _ _ => true
  | .errorf _ => false

/-- Embedding of `NotFoundError.Error()` (api_methods.go): the rendered
message of a not-found error. -/
def notFoundErrorMessage (resource query : String) : String :=
  "resource \x27" ++ resource ++ "\x27 not found for params \x27" ++ query ++ "\x27"

/-- Outcome of running a piece of Go code that may return normally, return an
error, or panic at runtime.  Panics carry the Go runtime message kind. -/
inductive GoResult (α : Type) where
  | ok (a : α)
  | err (e : GoErr)
  | panic (msg : String)
  deriving DecidableEq, Repr

/-- Record is a single decoded JSON object / Go `map[string]any`, modelled as
an association list (part_003: `type Record map[string]any`). -/
abbrev Record := List (String × GoVal)

/-- RecordSet is an ordered list of records (part_003: `type RecordSet []Record`). -/
abbrev RecordSet := List Record

/-- EmptyRecord is the distinct Go type for bodyless responses
(part_003: `type EmptyRecord map[string]any`). -/
abbrev EmptyRecord := List (String × GoVal)

/-- Params is the query/body parameter map (part_003: `type Params map[string]any`),
modelled as an association list with unique keys. -/
abbrev Params := List (String × GoVal)

/-- Lookup of a key in a Go map modelled as an association list:
`m[k]` yields the value and an `ok` flag; `none` models `ok = false`. -/
def mapLookup (m : List (String × GoVal)) (k : String) : Option GoVal :=
  List.lookup k m

/-- Go map indexing `m[k]` in a context using only the value: a missing key
yields the zero value `nil` of `any`, i.e. `vNull`. -/
def mapIndex (m : List (String × GoVal)) (k : String) : GoVal :=
  (mapLookup m k).getD .vNull

/-- Assignment `m[k] = v` on a Go map modelled as an association list:
replaces the binding if the key is present, otherwise appends it. -/
def mapInsert (m : List (String × GoVal)) (k : String) (v : GoVal) :
    List (String × GoVal) :=
  match m with
  | [] => [(k, v)]
  | (k₀, v₀) :: rest =>
    if k₀ = k then (k₀, v) :: rest else (k₀, v₀) :: mapInsert rest k v

/-- Keys of an association-list map. -/
def mapKeys (m : List (String × GoVal)) : List String := m.map (·.1)

/-- Embedding of `Params.Update` (part_003 lines 59-70): merges `other` into
the receiver.  The Go loop ranges over `other`; for each key already present
in the receiver it `continue`s when `override` is true, otherwise assigns.
Go map range order is arbitrary, but because each key of `other` is handled
independently the resulting map does not depend on it, so folding over the
association list in order is a faithful model. -/
def Params.Update (pr : Params) (other : Params) (override : Bool) : Params :=
  other.foldl
    (fun acc kv =>
      if (mapLookup acc kv.1).isSome && override then acc
      else mapInsert acc kv.1 kv.2)
    pr

/-- Embedding of `toInt` (utils.go lines 57-70): accepts Go `int64`,
`float64` and `int` representations of an id; anything else is an error.
The `float64` case is Go's conversion `int64(v)`, truncation toward zero,
modelled on rationals by `num.tdiv den`. -/
def toInt : GoVal → Except GoErr Int
  | .vInt64 n => .ok n
  | .vFloat q => .ok (q.num.tdiv q.den)
  | .vInt n => .ok n
  | v => .error (.errorf ("unexpected type for id field: " ++ goTypeName v))
where
  /-- Go `%T` rendering of the dynamic type of the value, as it appears in
  the error message. -/
  goTypeName : GoVal → String
    | .vStr _ => "string"
    | .vInt _ => "int"
    | .vInt64 _ => "int64"
    | .vFloat _ => "float64"
    | .vBool _ => "bool"
    | .vNull => "<nil>"
    | .vList _ => "[]interface \x7b\x7d"

/-- Character-level worker for splitting on a dot. -/
def splitOnDotAux : List Char → List Char → List String
  | [], acc => [acc.reverse.asString]
  | c :: cs, acc =>
    if c = '.' then acc.reverse.asString :: splitOnDotAux cs []
    else splitOnDotAux cs (c :: acc)

/-- Go `strings.Split(s, ".")`: splits on every dot; the empty string yields
one empty segment, exactly as in Go. -/
def splitOnDot (s : String) : List String :=
  splitOnDotAux s.toList []

/-- Embedding of `sanitizeVersion` (utils.go lines 51-55).  The Go code
splits on "." and slices `segments[:3]`; slicing a slice of fewer than three
elements beyond its length is a Go runtime panic, which the model makes
explicit. -/
def sanitizeVersion (version : String) : GoResult (String × Bool) :=
  let segments := splitOnDot version
  if segments.length < 3 then
    .panic "runtime error: slice bounds out of range"
  else
    .ok (String.intercalate "." (segments.take 3), decide (segments.length > 3))

/-- Semantic version with exactly the three core numeric segments, the shape
`hashicorp/go-version` values take after `sanitizeVersion` plus `.Core()`
(vast_resource.go `GetVersion`).  Minimum versions configured in `rest.go`
("5.3.0") also have this shape. -/
structure Version3 where
  major : Nat
  minor : Nat
  patch : Nat
  deriving DecidableEq, Repr

/-- Rendering of a core version, as `%s` formats a `*version.Version`. -/
def Version3.render (v : Version3) : String :=
  toString v.major ++ "." ++ toString v.minor ++ "." ++ toString v.patch

/-- Embedding of `version.Version.Compare` restricted to core versions:
-1, 0 or 1 by lexicographic comparison of the numeric segments. -/
def Version3.compareWith (a b : Version3) : Int :=
  if a.major < b.major then -1 else if b.major < a.major then 1
  else if a.minor < b.minor then -1 else if b.minor < a.minor then 1
  else if a.patch < b.patch then -1 else if b.patch < a.patch then 1
  else 0

/-- Strict order on core versions, matching `compareWith = -1`. -/
def Version3.lt (a b : Version3) : Bool :=
  a.compareWith b = -1

/-- Parses a decimal digit string (used for version segments). -/
def parseNatSegment (s : String) : Option Nat :=
  let cs := s.toList
  if cs ≠ [] ∧ cs.all (fun c => decide (48 ≤ c.toNat) && decide (c.toNat ≤ 57)) then
    some (cs.foldl (fun n c => n * 10 + (c.toNat - 48)) 0)
  else none

/-- Embedding of `version.NewVersion` restricted to the dotted numeric
triples produced by `sanitizeVersion`: parses "x.y.z" with numeric segments,
errors otherwise (go-version rejects non-numeric core segments). -/
def parseVersion3 (s : String) : Except GoErr Version3 :=
  match (splitOnDot s).mapM parseNatSegment with
  | some [a, b, c] => .ok ⟨a, b, c⟩
  | _ => .error (.errorf ("Malformed version: " ++ s))

/-- Client configuration fields consumed by `buildUrl` (the full `VMSConfig`
lives outside src; these fields and their defaults are visible in `rest.go`:
`witApiVersion("v5")`, `withPort(443)`). -/
structure VMSConfig where
  Host : String
  Port : Nat
  ApiVersion : String
  deriving DecidableEq, Repr

/-- Go `strings.Trim(path, "/")`: drops leading and trailing slashes. -/
def trimSlashes (s : String) : String :=
  ((s.toList.dropWhile (· = '/')).reverse.dropWhile (· = '/')).reverse.asString

/-- Go `url.JoinPath` on slash-free-or-clean segments: empty segments are
dropped and the rest joined with "/" (the `path.Join` cleaning step; the
client only passes segments without "." or doubled slashes). -/
def urlJoinPath (elems : List String) : String :=
  String.intercalate "/" (elems.filter (· ≠ ""))

/-- Embedding of `buildUrl` (rest.go lines 129-147).  Note the condition the
source actually has: `if apiVer != "" { apiVer = config.ApiVersion }` — a
non-empty per-call version is replaced by the configured one, while an empty
per-call version is left empty (and `url.JoinPath` then drops the empty
segment entirely). -/
def buildUrl (config : VMSConfig) (path query apiVer : String) : String :=
  let apiVer := if apiVer ≠ "" then config.ApiVersion else apiVer
  let joined := urlJoinPath ["api", apiVer, trimSlashes path]
  let base := "https://" ++ config.Host ++ ":" ++ toString config.Port ++ "/" ++ joined
  if query ≠ "" then base ++ "?" ++ query else base

/-- Entry metadata for one resource kind (api_methods.go `VastResourceEntry`).
`apiVersion` keeps its Go zero value "" unless set; `availableFromVersion`
is `none` when the resource has no minimum-version constraint (`nil` in Go). -/
structure VastResourceEntry where
  resourcePath : String
  resourceType : String
  apiVersion : String := ""
  availableFromVersion : Option Version3 := none

/-- Version string used in `rest.go` for resources without a minimum-version
constraint. -/
def dummyClusterVersion : String := "0.0.0"

/-- Embedding of `newResource` (rest.go lines 105-127): builds the entry for
a resource.  The composite literal sets `resourcePath`, `resourceType`,
and `availableFromVersion` (nil when the configured string is the dummy
version) and leaves `apiVersion` at its zero value "". -/
def newResource (resourcePath resourceType availableFromVersion : String) :
    VastResourceEntry :=
  let availableFrom : Option Version3 :=
    if availableFromVersion = dummyClusterVersion then none
    else match parseVersion3 availableFromVersion with
      | .ok v => some v
      | .error _ => none
  { resourcePath := resourcePath
    resourceType := resourceType
    availableFromVersion := availableFrom }

/-- Smallest power of ten that the denominator divides (a Go `float64`
rendered through `%v` always has such a terminating decimal form when the
value is a decimal literal; the bound 40 covers every value the client
handles). -/
def pow10Exponent (den : Nat) : Option Nat :=
  (List.range 40).find? (fun k => 10 ^ k % den = 0)

/-- Pads a digit string on the left with zeros up to length `k`. -/
def padLeftZeros (s : String) (k : Nat) : String :=
  String.mk (List.replicate (k - s.length) '0') ++ s

/-- Drops trailing zero digits of a fractional digit string. -/
def trimTrailingZeros (s : String) : String :=
  ((s.toList.reverse.dropWhile (· = '0')).reverse).asString

/-- Go `%v` formatting of a `float64` modelled as a rational: shortest
terminating decimal (integral values print without a decimal point, as in
Go's `strconv` shortest form). -/
def goSprintFloat (q : Rat) : String :=
  match pow10Exponent q.den with
  | some 0 => toString q.num
  | some k =>
    let scaled := (q.num * ((10 : Int) ^ k)).tdiv (q.den : Int)
    let sign := if scaled < 0 then "-" else ""
    let a := scaled.natAbs
    let ip := a / 10 ^ k
    let fp := trimTrailingZeros (padLeftZeros (toString (a % 10 ^ k)) k)
    if fp = "" then sign ++ toString ip
    else sign ++ toString ip ++ "." ++ fp
  | none => toString q.num ++ "/" ++ toString q.den

mutual

/-- Go `fmt.Sprint` / `fmt.Sprintf("%v", ·)` of a dynamic value, for the
value shapes the client formats (strings, numbers, nil, slices). -/
def goSprint : GoVal → String
  | .vStr s => s
  | .vInt n => toString n
  | .vInt64 n => toString n
  | .vFloat q => goSprintFloat q
  | .vBool b => if b then "true" else "false"
  | .vNull => "<nil>"
  | .vList xs => "[" ++ goSprintSpaced xs ++ "]"

/-- Elements of a Go slice as `%v` renders them: space-separated. -/
def goSprintSpaced : List GoVal → String
  | [] => ""
  | [x] => goSprint x
  | x :: xs => goSprint x ++ " " ++ goSprintSpaced xs

end

/-- ASCII lower-casing, the fragment of Go `strings.ToLower` exercised by the
task-state comparison (task states are ASCII words). -/
def toLowerAscii (s : String) : String :=
  (s.toList.map fun c =>
    if 'A' ≤ c ∧ c ≤ 'Z' then Char.ofNat (c.toNat + 32) else c).asString

/-- Byte-order comparison of strings (for ASCII it coincides with Go's
string `<` used by `url.Values.Encode` key sorting). -/
def charListLe : List Char → List Char → Bool
  | [], _ => true
  | _ :: _, [] => false
  | a :: as, b :: bs =>
    if a.toNat < b.toNat then true
    else if b.toNat < a.toNat then false
    else charListLe as bs

/-- String comparison wrapper over `charListLe`. -/
def stringLe (a b : String) : Bool :=
  charListLe a.toList b.toList

/-- Insertion of one entry into a key-sorted list, for modelling the sort
performed by `url.Values.Encode`. -/
def insertSortedBy (le : String → String → Bool) (x : String × GoVal) :
    List (String × GoVal) → List (String × GoVal)
  | [] => [x]
  | y :: ys => if le x.1 y.1 then x :: y :: ys else y :: insertSortedBy le x ys

/-- Key-sorting of the parameter entries, as `url.Values.Encode` sorts keys
before emitting them. -/
def sortByKey (le : String → String → Bool) : List (String × GoVal) → List (String × GoVal)
  | [] => []
  | x :: xs => insertSortedBy le x (sortByKey le xs)

/-- Hexadecimal digit in upper case, as Go's URL escaping emits. -/
def hexDigitUpper (n : Nat) : Char :=
  if n < 10 then Char.ofNat ('0'.toNat + n) else Char.ofNat ('A'.toNat + (n - 10))

/-- Go `url.QueryEscape` on one character (exact for the ASCII data the
client sends): alphanumerics and `-_.~` kept, space becomes `+`, anything
else percent-encoded. -/
def queryEscapeChar (c : Char) : List Char :=
  if c.isAlphanum ∨ c = '-' ∨ c = '_' ∨ c = '.' ∨ c = '~' then [c]
  else if c = ' ' then ['+']
  else ['%', hexDigitUpper (c.toNat / 16), hexDigitUpper (c.toNat % 16)]

/-- Go `url.QueryEscape` over a whole string. -/
def queryEscape (s : String) : String :=
  (s.toList.flatMap queryEscapeChar).asString

/-- Embedding of `convertMapToQuery` (utils.go lines 19-25): stringifies each
value with `fmt.Sprint`, and `url.Values.Encode` sorts the keys and emits
escaped `k=v` pairs joined by `&`. -/
def convertMapToQuery (params : Params) : String :=
  String.intercalate "&"
    ((sortByKey stringLe params).map fun kv =>
      queryEscape kv.1 ++ "=" ++ queryEscape (goSprint kv.2))

/-- Embedding of `Params.ToQuery` (part_003 lines 45-47). -/
def Params.ToQuery (pr : Params) : String :=
  convertMapToQuery pr

/-- Resource-kind tag key stamped by the dispatcher (part_003:
`const resourceTypeKey = "@resourceType"`). -/
def resourceTypeKey : String := "@resourceType"

/-- Outcome of one `GetVersion` call (vast_resource.go lines 56-72): the
returned value or failure, the process-wide cache afterwards, and how many
version-lookup `List` calls were issued (0 when served from cache). -/
structure GetVersionOutcome where
  result : GoResult Version3
  cache : Option Version3
  lookupCalls : Nat

/-- Embedding of `Version.GetVersion` (vast_resource.go lines 56-72).
`cache` is the process-wide `sysVersion`; `listFetch` is the outcome the
filtered status `List` call would produce.  The source indexes `result[0]`
without a length check, asserts `sys_version` to `string` without an ok
check, and `sanitizeVersion` can panic, so all three Go panics appear
explicitly.  A version that parses has numeric core segments, and `.Core()`
of such a version is itself. -/
def getVersion (cache : Option Version3) (listFetch : Except GoErr RecordSet) :
    GetVersionOutcome :=
  match cache with
  | some v => ⟨.ok v, some v, 0⟩
  | none =>
    match listFetch with
    | .error er => ⟨.err er, none, 1⟩
    | .ok result =>
      match result with
      | [] => ⟨.panic "runtime error: index out of range", none, 1⟩
      | r :: _ =>
        match mapIndex r "sys_version" with
        | .vStr s =>
          match sanitizeVersion s with
          | .panic m => ⟨.panic m, none, 1⟩
          | .err er => ⟨.err er, none, 1⟩
          | .ok (truncated, _) =>
            match parseVersion3 truncated with
            | .error er => ⟨.err er, none, 1⟩
            | .ok v => ⟨.ok v, some v, 1⟩
        | _ => ⟨.panic "interface conversion: interface \x7b\x7d is not string", none, 1⟩

/-- Embedding of `Version.CompareWith` (vast_resource.go lines 74-80):
fetches the (possibly cached) version and compares it with `other`. -/
def compareWith (cache : Option Version3) (listFetch : Except GoErr RecordSet)
    (other : Version3) : GoResult Int × Option Version3 × Nat :=
  let gv := getVersion cache listFetch
  match gv.result with
  | .ok v => (.ok (v.compareWith other), gv.cache, gv.lookupCalls)
  | .err er => (.err er, gv.cache, gv.lookupCalls)
  | .panic m => (.panic m, gv.cache, gv.lookupCalls)

/-- Message of the version-gate rejection (api_methods.go line 88): `%q` of
the resource type, `%s` of cluster version and minimum version. -/
def versionIncompatMessage (resourceType clusterVersion minVersion : String) :
    String :=
  "resource \"" ++ resourceType ++ "\" is not supported in VAST cluster version "
    ++ clusterVersion ++ " (supported from version " ++ minVersion ++ ")"

/-- Outcome of the version gate: result, cache afterwards, version-lookup
`List` calls issued. -/
structure GateOutcome where
  result : GoResult Unit
  cache : Option Version3
  lookupCalls : Nat

/-- Embedding of `checkVastResourceVersionCompat` (api_methods.go lines
78-91): passes immediately when the entry has no minimum version, otherwise
compares the (cached or fetched) cluster version with the minimum; a second
`GetVersion` call (served from the now-populated cache) supplies the version
string for the error message. -/
def checkVastResourceVersionCompat (e : VastResourceEntry)
    (cache : Option Version3) (listFetch : Except GoErr RecordSet) :
    GateOutcome :=
  match e.availableFromVersion with
  | none => ⟨.ok (), cache, 0⟩
  | some minV =>
    let cw := compareWith cache listFetch minV
    match cw.1 with
    | .err er => ⟨.err er, cw.2.1, cw.2.2⟩
    | .panic m => ⟨.panic m, cw.2.1, cw.2.2⟩
    | .ok compareOrd =>
      let gv2 := getVersion cw.2.1 listFetch
      let clusterVersion := match gv2.result with
        | .ok v => v.render
        | _ => ""
      if compareOrd = -1 then
        ⟨.err (.errorf (versionIncompatMessage e.resourceType clusterVersion
            (match e.availableFromVersion with
              | some m => m.render
              | none => ""))),
          gv2.cache, cw.2.2 + gv2.lookupCalls⟩
      else ⟨.ok (), gv2.cache, cw.2.2 + gv2.lookupCalls⟩

/-- Outcome of one resource entry operation together with the number of
resource network calls performed (used to show gate rejections perform no
resource call). -/
structure OpOutcome (α : Type) where
  result : GoResult α
  resourceCalls : Nat

/-- Embedding of `VastResourceEntry.List` (api_methods.go lines 112-117) at
the granularity the version-gate claims need: the gate runs first and any
gate failure returns before the resource `request` is issued;
`resourceFetch` is the outcome that `request[RecordSet]` would produce. -/
def entryList (e : VastResourceEntry) (cache : Option Version3)
    (versionListFetch : Except GoErr RecordSet)
    (resourceFetch : Except GoErr RecordSet) : OpOutcome RecordSet :=
  match (checkVastResourceVersionCompat e cache versionListFetch).result with
  | .err er => ⟨.err er, 0⟩
  | .panic m => ⟨.panic m, 0⟩
  | .ok _ =>
    match resourceFetch with
    | .error er => ⟨.err er, 1⟩
    | .ok rs => ⟨.ok rs, 1⟩

/-- Message for the ambiguous-match branch of `Get` (api_methods.go line
197). -/
def moreThanOneMessage (resource query : String) : String :=
  "more than one resource \x27" ++ resource ++ "\x27 found for params \x27"
    ++ query ++ "\x27"

/-- Embedding of `VastResourceEntry.Get` (api_methods.go lines 180-199).
`gate` is the version-gate outcome and `listResult` the outcome of the
underlying `request[RecordSet]` call: zero matches produce the distinct
`*NotFoundError` carrying the resource path and the encoded query; exactly
one match is returned; more than one is the ambiguous-match error. -/
def vastGet (e : VastResourceEntry) (params : Params) (gate : GoResult Unit)
    (listResult : Except GoErr RecordSet) : GoResult Record :=
  match gate with
  | .panic m => .panic m
  | .err er => .err er
  | .ok _ =>
    match listResult with
    | .error er => .err er
    | .ok result =>
      match result with
      | [] => .err (.notFound e.resourcePath (Params.ToQuery params))
      | [r] => .ok r
      | _ => .err (.errorf (moreThanOneMessage e.resourcePath (Params.ToQuery params)))

/-- Message for a record without an `id` field (api_methods.go line 149);
the Go format string has a `%s` verb but no argument, so `fmt` renders the
missing-argument marker in its place. -/
def missingIdMessage : String :=
  "resource \x27%!s(MISSING)\x27 does not have id field in body and thereby cannot be deleted by id"

/-- Embedding of `VastResourceEntry.Delete` (api_methods.go lines 137-156):
look up via `Get`; a not-found error is a successful no-op returning the
empty record; any other `Get` failure propagates; otherwise the record's
`id` field is extracted (`toInt`) and `DeleteById` is invoked with it.
`deleteById` is the outcome `DeleteById` would produce for a given id. -/
def vastDelete (e : VastResourceEntry) (params : Params) (gate : GoResult Unit)
    (listResult : Except GoErr RecordSet)
    (deleteById : Int → GoResult EmptyRecord) : GoResult EmptyRecord :=
  match vastGet e params gate listResult with
  | .panic m => .panic m
  | .err er => if isNotFoundErr er then .ok [] else .err er
  | .ok result =>
    match mapLookup result "id" with
    | none => .err (.errorf missingIdMessage)
    | some idVal =>
      match toInt idVal with
      | .error er => .err er
      | .ok idInt => deleteById idInt

/-- Go `%s` applied to an `int64` argument, as the `WaitTask` messages do
(vast_resource.go lines 300, 308, 311 pass `_taskId` to a `%s` verb):
`fmt` renders the wrong-verb marker. -/
def goFmtSInt64 (n : Int) : String :=
  "%!s(int64=" ++ toString n ++ ")"

/-- Embedding of the `isTaskComplete` closure inside `WaitTask`
(vast_resource.go lines 284-313).  `fetched` is the outcome of the
`GetById` poll: "completed" returns the task; "running" is an error whose
message claims a timeout; any other state extracts the last entry of the
task's `messages` list, with distinct errors for a malformed or empty
list. -/
def isTaskComplete (fetched : Except GoErr Record) : Except GoErr Record :=
  match fetched with
  | .error er => .error er
  | .ok task =>
    let taskName := goSprint (mapIndex task "name")
    let taskState := toLowerAscii (goSprint (mapIndex task "state"))
    match toInt (mapIndex task "id") with
    | .error er => .error er
    | .ok tId =>
      if taskState = "completed" then .ok task
      else if taskState = "running" then
        .error (.errorf ("task " ++ taskName ++ " with ID " ++ goFmtSInt64 tId
          ++ " is still running, timeout occurred"))
      else
        match mapIndex task "messages" with
        | .vList messages =>
          match messages.getLast? with
          | none => .error (.errorf ("task " ++ taskName ++ " failed with ID "
              ++ goFmtSInt64 tId ++ ": no messages found"))
          | some lastMsg => .error (.errorf ("task " ++ taskName ++ " failed with ID "
              ++ goFmtSInt64 tId ++ ": " ++ goSprint lastMsg))
        | raw => .error (.errorf ("unexpected message format: " ++ toInt.goTypeName raw))

/-- Message of the generic retry-budget exhaustion error
(vast_resource.go line 329). -/
def timeoutMessage : String := "task did not complete in time"

/-- Embedding of the retry loop of `WaitTask` (vast_resource.go lines
314-329).  `fetch` gives the outcome each successive `GetById` poll would
observe (indexed by attempt number); the loop retries on EVERY error from
`isTaskComplete` — terminal failure states included — and only the generic
timeout error is returned once the budget is exhausted.  The second
component counts the poll attempts performed. -/
def waitTaskLoop (fetch : Nat → Except GoErr Record) :
    Nat → Nat → Except GoErr Record × Nat
  | 0, attempts => (.error (.errorf timeoutMessage), attempts)
  | retries + 1, attempts =>
    match isTaskComplete (fetch attempts) with
    | .ok task => (.ok task, attempts + 1)
    | .error _ => waitTaskLoop fetch retries (attempts + 1)

/-- Embedding of `VTask.WaitTask` (vast_resource.go lines 282-330): 30
retries, fixed interval (the backoff factor is 1, so the interval never
changes). -/
def WaitTask (fetch : Nat → Except GoErr Record) : Except GoErr Record × Nat :=
  waitTaskLoop fetch 30 0

/-- Refresh threshold of the token-exchange authenticator (auth.go line 15:
`time.Minute * 10`), in nanoseconds as Go durations are. -/
def TokenRefreshTime : Int := 600000000000

/-- Token state of the exchange authenticator (auth.go `jwtToken`):
access/refresh values and the creation timestamp (nanoseconds). -/
structure JwtToken where
  Access : String
  Refresh : String
  CreatedAt : Int
  deriving DecidableEq, Repr

/-- State of `JWTAuthenticator` (auth.go lines 48-53): the token pointer is
`none` for Go `nil`, and `initialized` is the flag set on first use. -/
structure JWTAuthenticator where
  Token : Option JwtToken
  initialized : Bool
  deriving DecidableEq, Repr

/-- Which token-exchange endpoint a network call targets: `api/token/`
(acquire) or `api/token/refresh/` (refresh). -/
inductive ExchangeKind where
  | acquire
  | refresh
  deriving DecidableEq, Repr

/-- Response of one token-exchange HTTP call: status code, the body's parsed
`access`/`refresh` fields, and the raw body text used in the non-2xx error
message.  A `none` exchange outcome models a network failure (the Go code
then holds a nil `*http.Response`). -/
structure TokenResponse where
  status : Nat
  access : String
  refresh : String
  body : String
  deriving DecidableEq, Repr

/-- Message of `validateResponse` for a nil response (utils.go line 135). -/
def unreachableMessage : String :=
  "server unreachable: verify the host is correct and the network is accessible"

/-- Message of `validateResponse` for a non-2xx response (utils.go line
142). -/
def invalidStatusMessage (status : Nat) (body : String) : String :=
  "invalid status code " ++ toString status ++ ", err: " ++ body

/-- Embedding of `validateResponse` (utils.go lines 132-143) on a
token-exchange response: nil is the unreachable error, a status in
[200,299] is accepted, anything else is the invalid-status error. -/
def validateTokenResponse (resp : Option TokenResponse) :
    Except GoErr TokenResponse :=
  match resp with
  | none => .error (.errorf unreachableMessage)
  | some r =>
    if 200 ≤ r.status ∧ r.status ≤ 299 then .ok r
    else .error (.errorf (invalidStatusMessage r.status r.body))

/-- Outcome of one `Authorize` call: the authenticator state afterwards, the
returned result (or panic), and the exchange calls performed. -/
structure AuthorizeOutcome where
  auth : JWTAuthenticator
  result : GoResult Unit
  calls : List ExchangeKind
  deriving DecidableEq, Repr

/-- Shared tail of both exchange paths of `Authorize` (auth.go lines
135-144): validate the response status, parse the token, store it with the
current time as creation timestamp.  Note the error returned by the
exchange call itself is discarded by the source (`resp` is nil then) and
resurfaces as the unreachable error. -/
def finishExchange (auth : JWTAuthenticator) (now : Int)
    (resp : Option TokenResponse) (calls : List ExchangeKind) :
    AuthorizeOutcome :=
  match validateTokenResponse resp with
  | .error er => ⟨auth, .err er, calls⟩
  | .ok r =>
    ⟨{ auth with Token := some ⟨r.access, r.refresh, now⟩ }, .ok (), calls⟩

/-- Embedding of `JWTAuthenticator.Authorize` (auth.go lines 109-145),
executed under the session lock.  If initialized: reading
`auth.Token.CreatedAt` on a nil token is a Go nil-pointer panic; a token
younger than the threshold returns with no network call; otherwise one
refresh exchange runs.  If not initialized, one acquisition exchange runs,
and `initialized` is set BEFORE the response status is validated.
`exchange` gives the response the chosen endpoint would return. -/
def Authorize (auth : JWTAuthenticator) (now : Int)
    (exchange : ExchangeKind → Option TokenResponse) : AuthorizeOutcome :=
  if auth.initialized then
    match auth.Token with
    | none =>
      ⟨auth, .panic "runtime error: invalid memory address or nil pointer dereference", []⟩
    | some tok =>
      if now - tok.CreatedAt ≥ TokenRefreshTime then
        finishExchange auth now (exchange .refresh) [.refresh]
      else ⟨auth, .ok (), []⟩
  else
    finishExchange { auth with initialized := true } now (exchange .acquire) [.acquire]

/-- Union of the three response shapes flowing through the dispatcher
(part_003 `RecordUnion`, carried at runtime as the `Renderable`
interface). -/
inductive Renderable where
  | record (r : Record)
  | recordSet (rs : RecordSet)
  | emptyRecord (r : EmptyRecord)

/-- Static shape a call site expects (the generic type argument `T` of
`request[T]`): `Record`, `RecordSet` and `EmptyRecord` are three distinct
Go types, so a type assertion distinguishes all three. -/
inductive Shape where
  | record
  | recordSet
  | emptyRecord
  deriving DecidableEq, Repr

/-- Dynamic shape of a response value, as Go type assertions see it. -/
def shapeOf : Renderable → Shape
  | .record _ => .record
  | .recordSet _ => .recordSet
  | .emptyRecord _ => .emptyRecord

/-- Tag stamping of one record (api_methods.go lines 57-69): sets the
resource-kind key only if not already present. -/
def stampRecord (resourceType : String) (r : Record) : Record :=
  if (mapLookup r resourceTypeKey).isSome then r
  else mapInsert r resourceTypeKey (.vStr resourceType)

/-- Embedding of `setResourceKey` (api_methods.go lines 52-75): stamps the
resource-kind tag on a record or on every record of a set; an empty record
is returned unchanged. -/
def setResourceKey (result : Renderable) (resourceType : String) : Renderable :=
  match result with
  | .record r => .record (stampRecord resourceType r)
  | .recordSet rs => .recordSet (rs.map (stampRecord resourceType))
  | .emptyRecord r => .emptyRecord r

/-- Embedding of the response half of the generic dispatcher `request`
(part_002 lines 98-121), from the point where the HTTP call and
`unmarshalToRecordUnion[T]` produced `decoded` (an oracle parameter; on
success its shape is `expected` because decoding targets `T`): the result
is tagged via `setResourceKey`, handed to the after-request hook, and the
hook's value flows through the final unchecked assertion
`interceptedResult.(T)` — a value of any other dynamic shape makes that
assertion panic. -/
def requestAfterResponse (expected : Shape) (resourceType : String)
    (decoded : Except GoErr Renderable)
    (afterHook : Renderable → Except GoErr Renderable) : GoResult Renderable :=
  match decoded with
  | .error er => .err er
  | .ok result =>
    let tagged := setResourceKey result resourceType
    match afterHook tagged with
    | .error er => .err er
    | .ok intercepted =>
      if shapeOf intercepted = expected then .ok intercepted
      else .panic "interface conversion"

/-- Task record in the terminal failure state "failed" with one message,
used as a concrete poll trace. -/
def failedTask : Record :=
  [("id", .vInt64 1), ("name", .vStr "t"), ("state", .vStr "failed"),
   ("messages", .vList [.vStr "boom"])]

/-- Task record in the terminal success state "completed". -/
def completedTask : Record :=
  [("id", .vInt64 1), ("name", .vStr "t"), ("state", .vStr "completed")]

/-!  Theorems.  -/

theorem mapLookup_cons (k : String) (kv : String × GoVal)
    (m : List (String × GoVal)) :
    mapLookup (kv :: m) k = if k = kv.1 then some kv.2 else mapLookup m k := by
  obtain ⟨k₀, v₀⟩ := kv
  simp only [mapLookup, List.lookup]
  by_cases h : k = k₀
  · simp [h]
  · simp [h, beq_eq_false_iff_ne.mpr h]

theorem mapLookup_mapInsert (m : List (String × GoVal)) (k k' : String)
    (v : GoVal) :
    mapLookup (mapInsert m k v) k' = if k' = k then some v else mapLookup m k' := by
  induction m with
  | nil =>
    simp only [mapInsert, mapLookup, List.lookup]
    by_cases h : k' = k
    · simp [h]
    · simp [h, beq_eq_false_iff_ne.mpr h]
  | cons kv rest ih =>
    obtain ⟨k₀, v₀⟩ := kv
    simp only [mapInsert]
    by_cases h0 : k₀ = k
    · subst h0
      rw [if_pos rfl, mapLookup_cons, mapLookup_cons]
      by_cases h1 : k' = k₀
      · simp [h1]
      · simp [h1]
    · rw [if_neg h0, mapLookup_cons, ih, mapLookup_cons]
      by_cases h1 : k' = k₀
      · have hne : ¬ k' = k := fun h => h0 (h1.symm.trans h)
        simp [h1, hne, h0]
      · simp [h1]

theorem params_update_absent (p q : Params) (b : Bool) (k : String)
    (hk : ¬ k ∈ mapKeys q) :
    mapLookup (Params.Update p q b) k = mapLookup p k := by
  induction q generalizing p with
  | nil => rfl
  | cons kv rest ih =>
    obtain ⟨k₀, v₀⟩ := kv
    simp only [mapKeys, List.map_cons, List.mem_cons] at hk
    push_neg at hk
    simp only [Params.Update, List.foldl_cons]
    rw [show (List.foldl _ _ rest : Params) = Params.Update _ rest b from rfl,
      ih _ (by simpa [mapKeys] using hk.2)]
    by_cases hc : (mapLookup p k₀).isSome && b
    · simp [hc]
    · simp [hc, mapLookup_mapInsert, hk.1]

/-- C8: `Update(q, b)` merges `q` into the receiver `p`: a key only in `q`
is added with the value of `q`; a key absent from `q` keeps the value of
`p`; for a key present in both, the flag value `true` keeps the receiver's
value (skipping the incoming one) and `false` overwrites it with the value
of `q`. -/
theorem params_update_merge_policy (p q : Params) (b : Bool) (k : String)
    (hq : (mapKeys q).Nodup) :
    mapLookup (Params.Update p q b) k =
      match mapLookup q k with
      | none => mapLookup p k
      | some vq =>
        match mapLookup p k with
        | none => some vq
        | some vp => some (if b then vp else vq) := by
  induction q generalizing p with
  | nil =>
    simp [Params.Update, mapLookup]
  | cons kv rest ih =>
    obtain ⟨k₀, v₀⟩ := kv
    simp only [mapKeys, List.map_cons, List.nodup_cons] at hq
    simp only [Params.Update, List.foldl_cons]
    rw [show (List.foldl _ _ rest : Params) = Params.Update _ rest b from rfl]
    by_cases hk : k = k₀
    · subst hk
      rw [params_update_absent _ _ _ _ (by simpa [mapKeys] using hq.1)]
      rw [mapLookup_cons]
      simp only [if_pos rfl]
      by_cases hp : (mapLookup p k).isSome
      · obtain ⟨vp, hvp⟩ := Option.isSome_iff_exists.mp hp
        cases b with
        | true => simp [hvp]
        | false => simp [hvp, mapLookup_mapInsert]
      · rw [Option.not_isSome_iff_eq_none] at hp
        simp [hp, mapLookup_mapInsert]
    · rw [ih _ hq.2, mapLookup_cons, if_neg hk]
      by_cases hc : (mapLookup p k₀).isSome && b
      · simp [hc]
      · simp [hc, mapLookup_mapInsert, hk]

/-- Witness for C8: a concrete merge where key "a" is in both maps, "b" only
in the incoming map and "c" only in the receiver, checked for both flag
values. -/
theorem params_update_merge_policy_witness :
    mapLookup (Params.Update [("a", .vInt 1), ("c", .vInt 3)]
      [("a", .vInt 2), ("b", .vInt 4)] true) "a" = some (.vInt 1) := by
  exact params_update_merge_policy [("a", .vInt 1), ("c", .vInt 3)]
    [("a", .vInt 2), ("b", .vInt 4)] true "a" (by decide)

end VastClient

namespace VastClient

/-- C10: a record id that is a float with a non-zero fractional part is not
rejected by the identifier conversion: `toInt` applies `int64(v)`,
truncation toward zero, so 7.9 becomes 7, and `Delete` then invokes
`DeleteById` with the truncated identifier 7. -/
theorem delete_truncates_noninteger_float_id
    (deleteById : Int → GoResult EmptyRecord) (e : VastResourceEntry)
    (params : Params) :
    toInt (.vFloat (mkRat 79 10)) = .ok 7
    ∧ vastDelete e params (.ok ()) (.ok [[("id", .vFloat (mkRat 79 10))]]) deleteById
        = deleteById 7 := by
  constructor
  · rfl
  · rfl

/-- C1: evaluation of the URL builder at the arguments the standard entry
operations actually pass.  `newResource` leaves the entry's `apiVersion` at
the zero value "", and `buildUrl`'s condition `apiVer != ""` (rest.go line
132) replaces a NON-empty version with the configured one while keeping an
empty one empty, so every standard entry call produces
`api/{resourcePath}` with no version segment at all, and an explicitly
passed version can never reach the URL either. -/
theorem buildUrl_standard_entry_call_omits_version_segment :
    (newResource "views" "View" dummyClusterVersion).apiVersion = ""
    ∧ buildUrl ⟨"10.27.40.1", 443, "v5"⟩ "views" "" ""
        = "https://10.27.40.1:443/api/views"
    ∧ buildUrl ⟨"10.27.40.1", 443, "v5"⟩ "views" "" "v2"
        = "https://10.27.40.1:443/api/v5/views" := by
  refine ⟨rfl, by decide, by decide⟩

/-- C3: the three expected failure modes all in fact panic in the code.
(1) a first `Authorize` whose acquisition exchange returns a non-2xx status
returns an error but leaves `initialized = true` with a nil token, and the
next `Authorize` call then panics on the nil token dereference;
(2) `GetVersion` panics on a zero-record status list (index out of range)
and on a non-string `sys_version` (failed type assertion);
(3) `sanitizeVersion` panics on a version string with fewer than three
dot-separated segments. -/
theorem expected_failure_modes_panic :
    (Authorize ⟨none, false⟩ 0 (fun _ => some ⟨401, "", "", "bad creds"⟩)).result
        = .err (.errorf (invalidStatusMessage 401 "bad creds"))
    ∧ (Authorize ⟨none, false⟩ 0 (fun _ => some ⟨401, "", "", "bad creds"⟩)).auth
        = ⟨none, true⟩
    ∧ (Authorize ⟨none, true⟩ 0 (fun _ => some ⟨200, "a", "r", ""⟩)).result
        = .panic "runtime error: invalid memory address or nil pointer dereference"
    ∧ (getVersion none (.ok [])).result = .panic "runtime error: index out of range"
    ∧ (getVersion none (.ok [[("sys_version", .vInt 5)]])).result
        = .panic "interface conversion: interface \x7b\x7d is not string"
    ∧ sanitizeVersion "5.1" = .panic "runtime error: slice bounds out of range" := by
  refine ⟨rfl, rfl, rfl, rfl, rfl, ?_⟩
  rfl

end VastClient

namespace VastClient

/-- C5: a `Get` whose underlying `List` succeeds resolves by match count:
zero matches produce the distinct `*NotFoundError` carrying the resource
path and the encoded query; exactly one match returns that record; two or
more matches produce the distinct ambiguous-match error (which is not a
not-found error). -/
theorem get_resolves_by_match_count (e : VastResourceEntry) (params : Params)
    (listResult : Except GoErr RecordSet) :
    (listResult = .ok [] →
      vastGet e params (.ok ()) listResult
        = .err (.notFound e.resourcePath (Params.ToQuery params)))
    ∧ (∀ r, listResult = .ok [r] →
        vastGet e params (.ok ()) listResult = .ok r)
    ∧ (∀ r₁ r₂ rest, listResult = .ok (r₁ :: r₂ :: rest) →
        vastGet e params (.ok ()) listResult
          = .err (.errorf (moreThanOneMessage e.resourcePath (Params.ToQuery params))))
    ∧ isNotFoundErr (.notFound e.resourcePath (Params.ToQuery params)) = true
    ∧ isNotFoundErr (.errorf (moreThanOneMessage e.resourcePath (Params.ToQuery params)))
        = false := by
  refine ⟨fun h => ?_, fun r h => ?_, fun r₁ r₂ rest h => ?_, rfl, rfl⟩
  · subst h; rfl
  · subst h; rfl
  · subst h; rfl

/-- Witness for C5: synthetic 0-, 1- and 2-element result sets for a `Get`
on the views resource. -/
theorem get_resolves_by_match_count_witness :
    vastGet ⟨"views", "View", "", none⟩ [("name", .vStr "v1")] (.ok ()) (.ok [])
        = .err (.notFound "views" (Params.ToQuery [("name", .vStr "v1")]))
    ∧ vastGet ⟨"views", "View", "", none⟩ [("name", .vStr "v1")] (.ok ())
        (.ok [[("id", .vInt64 1)]]) = .ok [("id", .vInt64 1)]
    ∧ vastGet ⟨"views", "View", "", none⟩ [("name", .vStr "v1")] (.ok ())
        (.ok [[("id", .vInt64 1)], [("id", .vInt64 2)]])
        = .err (.errorf (moreThanOneMessage "views"
            (Params.ToQuery [("name", .vStr "v1")]))) := by
  refine ⟨?_, ?_, ?_⟩
  · exact (get_resolves_by_match_count _ _ _).1 rfl
  · exact (get_resolves_by_match_count _ _ _).2.1 _ rfl
  · exact (get_resolves_by_match_count _ _ _).2.2.1 _ _ _ rfl

/-- C6: `Delete` is an idempotent no-op when `Get` reports not-found
(returning the empty record with no error); any other `Get` error
propagates unchanged; when `Get` succeeds, the record id is extracted via
`toInt` — which accepts exactly the integer, float and plain-int
representations — and `DeleteById` is invoked with the resulting
identifier; a missing id field or a `toInt` rejection is an error. -/
theorem delete_idempotent_and_delegates (e : VastResourceEntry)
    (params : Params) (listResult : Except GoErr RecordSet)
    (deleteById : Int → GoResult EmptyRecord) :
    (listResult = .ok [] →
      vastDelete e params (.ok ()) listResult deleteById = .ok [])
    ∧ (∀ er, listResult = .error er → isNotFoundErr er = false →
        vastDelete e params (.ok ()) listResult deleteById = .err er)
    ∧ (∀ r v n, listResult = .ok [r] → mapLookup r "id" = some v →
        toInt v = .ok n →
        vastDelete e params (.ok ()) listResult deleteById = deleteById n)
    ∧ (∀ r, listResult = .ok [r] → mapLookup r "id" = none →
        vastDelete e params (.ok ()) listResult deleteById
          = .err (.errorf missingIdMessage))
    ∧ (∀ r v er, listResult = .ok [r] → mapLookup r "id" = some v →
        toInt v = .error er →
        vastDelete e params (.ok ()) listResult deleteById = .err er)
    ∧ (∀ v, (∃ n, toInt v = Except.ok n) ↔
        ((∃ n, v = .vInt n) ∨ (∃ n, v = .vInt64 n) ∨ (∃ q, v = .vFloat q))) := by
  refine ⟨fun h => ?_, fun er h hnf => ?_, fun r v n h hv htoi => ?_,
    fun r h hv => ?_, fun r v er h hv htoi => ?_, fun v => ?_⟩
  · subst h; rfl
  · subst h
    simp [vastDelete, vastGet, hnf]
  · subst h
    simp [vastDelete, vastGet, hv, htoi]
  · subst h
    simp [vastDelete, vastGet, hv]
  · subst h
    simp [vastDelete, vastGet, hv, htoi]
  · constructor
    · intro ⟨n, hn⟩
      cases v with
      | vInt m => exact Or.inl ⟨m, rfl⟩
      | vInt64 m => exact Or.inr (Or.inl ⟨m, rfl⟩)
      | vFloat q => exact Or.inr (Or.inr ⟨q, rfl⟩)
      | vStr s => exact absurd hn (by simp [toInt])
      | vBool b => exact absurd hn (by simp [toInt])
      | vNull => exact absurd hn (by simp [toInt])
      | vList xs => exact absurd hn (by simp [toInt])
    · rintro (⟨n, rfl⟩ | ⟨n, rfl⟩ | ⟨q, rfl⟩)
      · exact ⟨n, rfl⟩
      · exact ⟨n, rfl⟩
      · exact ⟨q.num.tdiv q.den, rfl⟩

/-- Witness for C6: a delete over a not-found result, over a propagating
generic error, and over a single matched record with an integer id. -/
theorem delete_idempotent_and_delegates_witness
    (deleteById : Int → GoResult EmptyRecord) :
    vastDelete ⟨"quotas", "Quota", "", none⟩ [] (.ok ()) (.ok []) deleteById
        = .ok []
    ∧ vastDelete ⟨"quotas", "Quota", "", none⟩ [] (.ok ())
        (.error (.errorf "boom")) deleteById = .err (.errorf "boom")
    ∧ vastDelete ⟨"quotas", "Quota", "", none⟩ [] (.ok ())
        (.ok [[("id", .vInt64 25)]]) deleteById = deleteById 25 := by
  refine ⟨?_, ?_, ?_⟩
  · exact (delete_idempotent_and_delegates _ _ _ _).1 rfl
  · exact (delete_idempotent_and_delegates _ _ _ _).2.1 _ rfl rfl
  · exact (delete_idempotent_and_delegates _ _ _ _).2.2.1 _ _ _ rfl rfl rfl

/-- C9: when the after-request hook returns, without error, a value whose
dynamic shape differs from the statically expected one, the dispatcher's
final unchecked type assertion panics instead of returning an error; a
value of the same shape is returned normally, so only same-shape
replacements are safe. -/
theorem after_hook_shape_mismatch_panics (expected : Shape) (ty : String)
    (decoded : Renderable) (hook : Renderable → Except GoErr Renderable) :
    (∀ v, hook (setResourceKey decoded ty) = .ok v → shapeOf v ≠ expected →
      requestAfterResponse expected ty (.ok decoded) hook
        = .panic "interface conversion")
    ∧ (∀ v, hook (setResourceKey decoded ty) = .ok v → shapeOf v = expected →
      requestAfterResponse expected ty (.ok decoded) hook = .ok v) := by
  constructor
  · intro v hv hne
    simp only [requestAfterResponse]
    rw [hv]
    simp [hne]
  · intro v hv he
    simp only [requestAfterResponse]
    rw [hv]
    simp [he]

/-- Witness for C9: a hook replacing an expected single record with a
record set makes the dispatcher panic; replacing it with another record is
returned. -/
theorem after_hook_shape_mismatch_panics_witness :
    requestAfterResponse .record "View" (.ok (.record []))
        (fun _ => .ok (.recordSet [])) = .panic "interface conversion"
    ∧ requestAfterResponse .record "View" (.ok (.record []))
        (fun _ => .ok (.record [("x", .vInt 1)])) = .ok (.record [("x", .vInt 1)]) := by
  constructor
  · exact (after_hook_shape_mismatch_panics _ _ _ _).1 _ rfl (by decide)
  · exact (after_hook_shape_mismatch_panics _ _ _ _).2 _ rfl rfl

end VastClient

namespace VastClient

/-- C2 counterexample: a poll trace in which every attempt observes the
terminal state "failed" with messages ["boom"] — `isTaskComplete` does
produce the failure error carrying the last message, but the retry loop
swallows it and keeps polling: `WaitTask` performs all 30 attempts and
returns the generic timeout error, not the failure error at the first
attempt as the claim states. -/
theorem waitTask_does_not_stop_on_failure_state :
    isTaskComplete (.ok failedTask)
        = .error (.errorf "task t failed with ID %!s(int64=1): boom")
    ∧ WaitTask (fun _ => .ok failedTask)
        = (.error (.errorf timeoutMessage), 30) := by
  exact ⟨rfl, rfl⟩

theorem waitTaskLoop_all_error (fetch : Nat → Except GoErr Record)
    (retries attempts : Nat)
    (h : ∀ i, i < retries → ∃ er, isTaskComplete (fetch (attempts + i)) = .error er) :
    waitTaskLoop fetch retries attempts
      = (.error (.errorf timeoutMessage), attempts + retries) := by
  induction retries generalizing attempts with
  | zero => rfl
  | succ n ih =>
    obtain ⟨er, her⟩ := h 0 (Nat.succ_pos n)
    rw [Nat.add_zero] at her
    have step : waitTaskLoop fetch (n + 1) attempts
        = waitTaskLoop fetch n (attempts + 1) := by
      simp [waitTaskLoop, her]
    rw [step, ih (attempts + 1) (fun i hi => by
      have := h (i + 1) (by omega)
      simpa [show attempts + (i + 1) = attempts + 1 + i by omega] using this)]
    congr 1
    omega

theorem waitTaskLoop_first_success (fetch : Nat → Except GoErr Record)
    (retries attempts i : Nat) (t : Record)
    (hi : i < retries)
    (hpre : ∀ j, j < i → ∃ er, isTaskComplete (fetch (attempts + j)) = .error er)
    (hok : isTaskComplete (fetch (attempts + i)) = .ok t) :
    waitTaskLoop fetch retries attempts = (.ok t, attempts + i + 1) := by
  induction i generalizing retries attempts with
  | zero =>
    obtain ⟨m, rfl⟩ := Nat.exists_eq_succ_of_ne_zero (Nat.pos_iff_ne_zero.mp hi)
    rw [Nat.add_zero] at hok
    simp [waitTaskLoop, hok]
  | succ k ih =>
    obtain ⟨m, rfl⟩ := Nat.exists_eq_succ_of_ne_zero
      (Nat.pos_iff_ne_zero.mp (Nat.lt_of_le_of_lt (Nat.zero_le _) hi))
    obtain ⟨er, her⟩ := hpre 0 (Nat.succ_pos k)
    rw [Nat.add_zero] at her
    have step : waitTaskLoop fetch (m + 1) attempts
        = waitTaskLoop fetch m (attempts + 1) := by
      simp [waitTaskLoop, her]
    rw [step, ih m (attempts + 1) (by omega)
      (fun j hj => by
        have := hpre (j + 1) (by omega)
        simpa [show attempts + (j + 1) = attempts + 1 + j by omega] using this)
      (by simpa [show attempts + (k + 1) = attempts + 1 + k by omega] using hok)]
    congr 1
    omega

/-- C2 amended: within the 30-attempt budget, `WaitTask` returns the task
record at the first attempt whose poll observes state "completed"; EVERY
error outcome of an attempt — a terminal failure state with its message
included — is treated as retryable, and when no attempt succeeds the
generic "did not complete in time" timeout error is returned after all 30
attempts, so the failure message of a terminal state is never surfaced to
the caller. -/
theorem waitTask_retries_all_errors (fetch : Nat → Except GoErr Record) :
    ((∀ i, i < 30 → ∃ er, isTaskComplete (fetch i) = .error er) →
      WaitTask fetch = (.error (.errorf timeoutMessage), 30))
    ∧ (∀ i t, i < 30 → (∀ j, j < i → ∃ er, isTaskComplete (fetch j) = .error er) →
        isTaskComplete (fetch i) = .ok t →
        WaitTask fetch = (.ok t, i + 1)) := by
  constructor
  · intro h
    have := waitTaskLoop_all_error fetch 30 0 (fun i hi => by simpa using h i hi)
    simpa [WaitTask] using this
  · intro i t hi hpre hok
    have := waitTaskLoop_first_success fetch 30 0 i t hi
      (fun j hj => by simpa using hpre j hj) (by simpa using hok)
    simpa [WaitTask] using this

/-- Witness for C2's amended theorem: the all-failure trace polls 30 times
and times out; a trace that is "completed" at the very first attempt
returns that task after one poll. -/
theorem waitTask_retries_all_errors_witness :
    WaitTask (fun _ => .ok failedTask) = (.error (.errorf timeoutMessage), 30)
    ∧ WaitTask (fun _ => .ok completedTask) = (.ok completedTask, 1) := by
  constructor
  · exact (waitTask_retries_all_errors _).1 (fun i _ => ⟨_, rfl⟩)
  · exact (waitTask_retries_all_errors _).2 0 completedTask (by omega)
      (fun j hj => absurd hj (by omega)) rfl

end VastClient

namespace VastClient

theorem getVersion_ok_cache (cache : Option Version3)
    (fetch : Except GoErr RecordSet) (v : Version3)
    (h : (getVersion cache fetch).result = .ok v) :
    (getVersion cache fetch).cache = some v := by
  unfold getVersion at h ⊢
  cases cache with
  | some w => simp_all
  | none =>
    cases fetch with
    | error er => simp_all
    | ok result =>
      cases result with
      | nil => simp_all
      | cons r rest =>
        cases hm : mapIndex r "sys_version" <;> simp only [hm] at h ⊢ <;>
          try simp_all
        case vStr sv =>
          cases hs : sanitizeVersion sv <;> simp only [hs] at h ⊢ <;>
            try simp_all
          case ok pr =>
            obtain ⟨tr, fl⟩ := pr
            cases hp : parseVersion3 tr <;> simp_all

theorem gate_eval (e : VastResourceEntry) (cache : Option Version3)
    (vfetch : Except GoErr RecordSet) (minV v : Version3)
    (hmin : e.availableFromVersion = some minV)
    (hv : (getVersion cache vfetch).result = .ok v) :
    (checkVastResourceVersionCompat e cache vfetch).result
      = if v.compareWith minV = -1 then
          .err (.errorf (versionIncompatMessage e.resourceType v.render minV.render))
        else .ok () := by
  have hc := getVersion_ok_cache cache vfetch v hv
  simp only [checkVastResourceVersionCompat, compareWith, hmin, hv, hc]
  by_cases hcmp : v.compareWith minV = -1 <;> simp [hcmp, getVersion]

/-- C4: an entry with no configured minimum version passes the gate with no
version-lookup call; an entry with a minimum version is rejected with the
version-incompatible error — naming the resource type, the cluster version
and the required minimum — exactly when the cached or fetched cluster
version is strictly below the minimum, in which case the operation performs
no resource network call. -/
theorem version_gate_spec (e : VastResourceEntry) (cache : Option Version3)
    (vfetch rfetch : Except GoErr RecordSet) :
    (e.availableFromVersion = none →
      checkVastResourceVersionCompat e cache vfetch = ⟨.ok (), cache, 0⟩)
    ∧ (∀ minV v, e.availableFromVersion = some minV →
        (getVersion cache vfetch).result = .ok v →
        ((checkVastResourceVersionCompat e cache vfetch).result
            = .err (.errorf (versionIncompatMessage e.resourceType
                v.render minV.render))
          ↔ Version3.lt v minV = true))
    ∧ (∀ minV v, e.availableFromVersion = some minV →
        (getVersion cache vfetch).result = .ok v → Version3.lt v minV = false →
        (checkVastResourceVersionCompat e cache vfetch).result = .ok ())
    ∧ (∀ minV v, e.availableFromVersion = some minV →
        (getVersion cache vfetch).result = .ok v → Version3.lt v minV = true →
        (entryList e cache vfetch rfetch).resourceCalls = 0) := by
  refine ⟨fun hnone => ?_, fun minV v hmin hv => ?_, fun minV v hmin hv hge => ?_,
    fun minV v hmin hv hlt => ?_⟩
  · simp [checkVastResourceVersionCompat, hnone]
  · rw [gate_eval e cache vfetch minV v hmin hv]
    by_cases hcmp : v.compareWith minV = -1
    · simp [hcmp, Version3.lt]
    · simp [hcmp, Version3.lt]
  · simp only [Version3.lt, decide_eq_false_iff_not] at hge
    rw [gate_eval e cache vfetch minV v hmin hv, if_neg hge]
  · simp only [Version3.lt, decide_eq_true_eq] at hlt
    simp only [entryList]
    rw [gate_eval e cache vfetch minV v hmin hv, if_pos hlt]

/-- Witness for C4: the views entry (no minimum) passes with zero lookups;
the blockhosts entry (minimum 5.3.0) is rejected on a 5.2.0 cluster with no
resource call, and passes on a 5.3.0 cluster. -/
theorem version_gate_spec_witness :
    checkVastResourceVersionCompat (newResource "views" "View" dummyClusterVersion)
        (some ⟨5, 2, 0⟩) (.ok []) = ⟨.ok (), some ⟨5, 2, 0⟩, 0⟩
    ∧ ((checkVastResourceVersionCompat (newResource "blockhosts" "BlockHost" "5.3.0")
        (some ⟨5, 2, 0⟩) (.ok [])).result
          = .err (.errorf (versionIncompatMessage "BlockHost"
              (Version3.render ⟨5, 2, 0⟩) (Version3.render ⟨5, 3, 0⟩)))
        ↔ Version3.lt ⟨5, 2, 0⟩ ⟨5, 3, 0⟩ = true)
    ∧ (checkVastResourceVersionCompat (newResource "blockhosts" "BlockHost" "5.3.0")
        (some ⟨5, 3, 0⟩) (.ok [])).result = .ok ()
    ∧ (entryList (newResource "blockhosts" "BlockHost" "5.3.0") (some ⟨5, 2, 0⟩)
        (.ok []) (.ok [])).resourceCalls = 0 := by
  refine ⟨?_, ?_, ?_, ?_⟩
  · exact (version_gate_spec _ _ _ (.ok [])).1 rfl
  · exact (version_gate_spec _ _ _ (.ok [])).2.1 ⟨5, 3, 0⟩ ⟨5, 2, 0⟩ rfl rfl
  · exact (version_gate_spec _ _ _ (.ok [])).2.2.1 ⟨5, 3, 0⟩ ⟨5, 3, 0⟩ rfl rfl (by decide)
  · exact (version_gate_spec _ _ _ (.ok [])).2.2.2 ⟨5, 3, 0⟩ ⟨5, 2, 0⟩ rfl rfl (by decide)

theorem finishExchange_calls (auth : JWTAuthenticator) (now : Int)
    (resp : Option TokenResponse) (calls : List ExchangeKind) :
    (finishExchange auth now resp calls).calls = calls := by
  unfold finishExchange
  cases h : validateTokenResponse resp <;> simp

/-- C7: on one session, a first successful `Authorize` performs exactly one
network call — the acquisition exchange — and stores the token with the
current time; any later `Authorize` while the elapsed time since the stored
token's creation is below the 10-minute threshold performs zero network
calls and leaves the state unchanged; once the elapsed time reaches the
threshold, `Authorize` performs exactly one refresh exchange. -/
theorem jwt_authorize_call_policy (exchange : ExchangeKind → Option TokenResponse) :
    (∀ t0 r, exchange .acquire = some r → 200 ≤ r.status → r.status ≤ 299 →
      Authorize ⟨none, false⟩ t0 exchange
        = ⟨⟨some ⟨r.access, r.refresh, t0⟩, true⟩, .ok (), [.acquire]⟩)
    ∧ (∀ auth t1 tok, auth.initialized = true → auth.Token = some tok →
        t1 - tok.CreatedAt < TokenRefreshTime →
        Authorize auth t1 exchange = ⟨auth, .ok (), []⟩)
    ∧ (∀ auth t2 tok, auth.initialized = true → auth.Token = some tok →
        TokenRefreshTime ≤ t2 - tok.CreatedAt →
        (Authorize auth t2 exchange).calls = [.refresh]) := by
  refine ⟨fun t0 r hex h200 h299 => ?_, fun auth t1 tok hinit htok hlt => ?_,
    fun auth t2 tok hinit htok hge => ?_⟩
  · simp [Authorize, finishExchange, validateTokenResponse, hex, h200, h299]
  · obtain ⟨tk, init⟩ := auth
    simp only at hinit htok
    subst hinit htok
    simp [Authorize, not_le.mpr hlt]
  · obtain ⟨tk, init⟩ := auth
    simp only at hinit htok
    subst hinit htok
    simp [Authorize, hge, finishExchange_calls]

/-- Witness for C7: an acquire at time 0, a second call at time 5 (within
the threshold, no calls, state unchanged), and a call at exactly the
threshold (one refresh exchange). -/
theorem jwt_authorize_call_policy_witness :
    Authorize ⟨none, false⟩ 0 (fun _ => some ⟨200, "A", "R", ""⟩)
        = ⟨⟨some ⟨"A", "R", 0⟩, true⟩, .ok (), [.acquire]⟩
    ∧ Authorize ⟨some ⟨"A", "R", 0⟩, true⟩ 5 (fun _ => some ⟨200, "A", "R", ""⟩)
        = ⟨⟨some ⟨"A", "R", 0⟩, true⟩, .ok (), []⟩
    ∧ (Authorize ⟨some ⟨"A", "R", 0⟩, true⟩ TokenRefreshTime
        (fun _ => some ⟨200, "A", "R", ""⟩)).calls = [.refresh] := by
  refine ⟨?_, ?_, ?_⟩
  · exact (jwt_authorize_call_policy _).1 0 ⟨200, "A", "R", ""⟩ rfl (by decide) (by decide)
  · exact (jwt_authorize_call_policy _).2.1 _ 5 ⟨"A", "R", 0⟩ rfl rfl (by decide)
  · exact (jwt_authorize_call_policy _).2.2 _ TokenRefreshTime ⟨"A", "R", 0⟩ rfl rfl
      (by norm_num [TokenRefreshTime])

end VastClient
